import Mathlib

/-!
Verification of the linkerd-tcp `app` module (src/app.rs): configuration
parsing, topology building (`AppConfig::into_app`, `RouterConfig::into_router`),
admin-runner structure, the shutdown latch and the metrics/accept loops of
`AdminRunner::run`.

Collaborator modules (resolver, connector, balancer, router, server, tacho,
hyper, the futures oneshot channel) are outside the given source; they are
modelled as abstract parameters (`Collab`, `DecodeCollab`, `ParseCollab`) or,
where a claim depends on their contract, modelled from the spec with a doc
comment saying so.
-/

namespace Linkerd

/-! ## Collaborator payload types (opaque stand-ins for external modules) -/

/-- Opaque stand-in for `resolver::NamerdConfig` (external module). -/
structure NamerdConfig where
  payload : Nat
  deriving DecidableEq

/-- Opaque stand-in for the namerd client built by `NamerdConfig::into_namerd`. -/
structure Namerd where
  payload : Nat
  deriving DecidableEq

/-- Opaque stand-in for `resolver::Resolver`. -/
structure Resolver where
  payload : Nat
  deriving DecidableEq

/-- Opaque stand-in for `resolver::Executor`. -/
structure Executor where
  payload : Nat
  deriving DecidableEq

/-- Opaque stand-in for `connector::ConnectorFactoryConfig`. -/
structure ConnectorFactoryConfig where
  payload : Nat
  deriving DecidableEq

/-- The `ConnectorFactoryConfig::default()` value used by `unwrap_or_default`. -/
instance : Inhabited ConnectorFactoryConfig := ⟨⟨0⟩⟩

/-- Opaque stand-in for the connector factory built from a `ConnectorFactoryConfig`. -/
structure ConnectorFactory where
  payload : Nat
  deriving DecidableEq

/-- Opaque stand-in for `balancer::BalancerFactory`. -/
structure BalancerFactory where
  payload : Nat
  deriving DecidableEq

/-- Opaque stand-in for `router::Router` (cheaply cloneable). -/
structure Router where
  payload : Nat
  deriving DecidableEq

/-- Opaque stand-in for `server::ServerConfig` (collaborator schema). -/
structure ServerConfig where
  payload : Nat
  deriving DecidableEq

/-- Opaque stand-in for the internals of `server::Unbound` other than the
shared transfer buffer it holds. -/
structure ServerCore where
  payload : Nat
  deriving DecidableEq

/-- Opaque error payloads of the collaborator config translations. -/
structure ResolverCfgErr where
  code : Nat
  deriving DecidableEq

structure ConnectorCfgErr where
  code : Nat
  deriving DecidableEq

structure ServerCfgErr where
  code : Nat
  deriving DecidableEq

/-- A tacho metrics scope; `prefixed`/`labeled` extend the scope path. -/
structure Scope where
  path : List String
  deriving DecidableEq

def Scope.prefixed (s : Scope) (p : String) : Scope := ⟨s.path ++ [p]⟩

def Scope.labeled (s : Scope) (k v : String) : Scope := ⟨s.path ++ [k, v]⟩

/-- The tacho metrics reporter: accumulated counter events since the last
`take`.  `take` is snapshot-and-reset (see the metrics-loop model below). -/
structure Reporter where
  counts : List (String × Nat)
  deriving DecidableEq

/-- The `tacho::new()` call: a fresh root scope and an empty reporter. -/
def tachoNew : Scope × Reporter := (⟨[]⟩, ⟨[]⟩)

/-! ## Basic std types used by app.rs -/

/-- Mirrors `std::net::IpAddr`. -/
inductive IpAddr where
  | v4 : Nat → Nat → Nat → Nat → IpAddr
  | v6 : Nat → IpAddr
  deriving DecidableEq

/-- Mirrors `std::net::SocketAddr` (port is a u16; claims never overflow it). -/
structure SocketAddr where
  ip : IpAddr
  port : Nat
  deriving DecidableEq

/-- Mirrors `std::time::Duration`, constructed only through `from_secs` in app.rs. -/
structure Duration where
  secs : Nat
  deriving DecidableEq

def Duration.from_secs (s : Nat) : Duration := ⟨s⟩

/-- Mirrors `std::time::Instant` (abstract point in time). -/
abbrev Instant := Nat

/-! ## Constants (src/app.rs lines 23-26) -/

def DEFAULT_ADMIN_PORT : Nat := 9989

def DEFAULT_BUFFER_SIZE_BYTES : Nat := 16 * 1024

def DEFAULT_GRACE_SECS : Nat := 10

def DEFAULT_METRICS_INTERVAL_SECS : Nat := 60

/-- Mirrors `fn localhost_addr() -> net::IpAddr` (src/app.rs line 165). -/
def localhost_addr : IpAddr := .v4 127 0 0 1

/-! ## Rc-heap model for the shared transfer buffer

`Rc<RefCell<Vec<u8>>>` identity is modelled with an allocation heap: a
`BufRef` is the index of an allocation, and cloning the `Rc` copies the
reference (the index), never the contents. -/

/-- A reference to a heap-allocated shared byte buffer (an `Rc` identity). -/
structure BufRef where
  id : Nat
  deriving DecidableEq

/-- The allocation heap of shared buffers; byte values are `Nat` (u8). -/
structure Heap where
  bufs : List (List Nat)
  deriving DecidableEq

/-- Allocate a new buffer, returning the shared reference to it. -/
def Heap.alloc (h : Heap) (v : List Nat) : BufRef × Heap :=
  (⟨h.bufs.length⟩, ⟨h.bufs ++ [v]⟩)

/-- Dereference a buffer. -/
def Heap.lookup (h : Heap) (r : BufRef) : Option (List Nat) :=
  h.bufs.get? r.id

/-! ## Configuration model (src/app.rs) -/

/-- Mirrors `InterpreterConfig` (src/app.rs lines 270-274): tagged enum, single
variant `io.l5d.namerd.http`. -/
inductive InterpreterConfig where
  | namerdHttp : NamerdConfig → InterpreterConfig
  deriving DecidableEq

/-- Mirrors `RouterConfig` (src/app.rs lines 180-194). -/
structure RouterConfig where
  label : String
  servers : List ServerConfig
  client : Option ConnectorFactoryConfig
  interpreter : InterpreterConfig
  deriving DecidableEq

/-- Mirrors `AdminConfig` (src/app.rs lines 279-292). -/
structure AdminConfig where
  port : Option Nat
  ip : Option IpAddr
  metrics_interval_secs : Option Nat
  grace_secs : Option Nat
  deriving DecidableEq

/-- Mirrors `AppConfig` (src/app.rs lines 64-73). -/
structure AppConfig where
  admin : Option AdminConfig
  routers : List RouterConfig
  buffer_size_bytes : Option Nat
  deriving DecidableEq

/-! ## Error type (src/app.rs lines 33-48) -/

/-- Schema-level deserialization errors produced by the serde-derived
`Deserialize` impls (`deny_unknown_fields`, missing/ill-typed fields). -/
inductive DeErr where
  | unknownField : String → DeErr
  | missingField : String → DeErr
  | typeMismatch : DeErr
  | badKind : String → DeErr
  deriving DecidableEq

/-- A `serde_json::Error`: either a text-level syntax error or a
schema-level deserialization error. -/
inductive JsonErr where
  | synErr : Nat → JsonErr
  | deErr : DeErr → JsonErr
  deriving DecidableEq

/-- A `serde_yaml::Error`, same shape. -/
inductive YamlErr where
  | synErr : Nat → YamlErr
  | deErr : DeErr → YamlErr
  deriving DecidableEq

/-- Mirrors `app::Error` (src/app.rs lines 33-48). -/
inductive Error where
  | json : JsonErr → Error
  | yaml : YamlErr → Error
  | connector : ConnectorCfgErr → Error
  | interpreter : ResolverCfgErr → Error
  | server : ServerCfgErr → Error
  deriving DecidableEq

/-! ## External collaborator functions used by the topology builder -/

/-- The collaborator functions `into_app`/`into_router` call out to; all
live outside src/app.rs and are abstract here. -/
structure Collab where
  intoNamerd : NamerdConfig → Scope → Except ResolverCfgErr Namerd
  resolverNew : Namerd → Resolver × Executor
  mkConnectorFactory : ConnectorFactoryConfig → Except ConnectorCfgErr ConnectorFactory
  balancerNew : ConnectorFactory → Scope → BalancerFactory
  routerNew : Resolver → BalancerFactory → Scope → Router
  mkServerCore : ServerConfig → Router → Scope → Except ServerCfgErr ServerCore

/-- Modelled from the spec: `server::ServerConfig::mk_server` (the Server
collaborator, not under src/) receives the shared transfer buffer and the
built server proxies through it, so the produced `Unbound` retains exactly
the buffer reference handed to `mk_server`. -/
structure Unbound where
  core : ServerCore
  buf : BufRef
  deriving DecidableEq

/-- The call `config.mk_server(router, buf, &metrics)` as made from
`RouterConfig::into_router` (src/app.rs lines 228-230). -/
def mk_server (c : Collab) (cfg : ServerConfig) (router : Router) (buf : BufRef)
    (metrics : Scope) : Except ServerCfgErr Unbound :=
  (c.mkServerCore cfg router metrics).map fun core => ⟨core, buf⟩

/-! ## RouterConfig::into_router (src/app.rs lines 196-239) -/

/-- Mirrors `RouterSpawner` (src/app.rs lines 242-245). -/
structure RouterSpawner where
  servers : List Unbound
  resolver_executor : Option Executor
  deriving DecidableEq

/-- The server-building loop of `into_router` (src/app.rs lines 225-232):
build each server in declared order, failing on the first error. -/
def mkServers (c : Collab) (router : Router) (buf : BufRef) (metrics : Scope) :
    List ServerConfig → Except Error (List Unbound)
  | [] => .ok []
  | cfg :: rest =>
    match mk_server c cfg router buf metrics with
    | .error e => .error (.server e)
    | .ok s =>
      match mkServers c router buf metrics rest with
      | .error e => .error e
      | .ok ss => .ok (s :: ss)

/-- Mirrors `RouterConfig::into_router` (src/app.rs lines 196-239). -/
def RouterConfig.into_router (self : RouterConfig) (c : Collab) (buf : BufRef)
    (metrics : Scope) : Except Error RouterSpawner :=
  let metrics := metrics.labeled "rt" self.label
  match self.interpreter with
  | .namerdHttp config =>
    match c.intoNamerd config metrics with
    | .error e => .error (.interpreter e)
    | .ok namerd =>
      let rp := c.resolverNew namerd
      match c.mkConnectorFactory (self.client.getD default) with
      | .error e => .error (.connector e)
      | .ok client =>
        let balancer := c.balancerNew client (metrics.prefixed "balancer")
        let router := c.routerNew rp.1 balancer metrics
        match mkServers c router buf metrics self.servers with
        | .error e => .error e
        | .ok servers => .ok ⟨servers, some rp.2⟩

/-! ## AppConfig::into_app (src/app.rs lines 89-163) -/

/-- Build results distinguish the `expect`-panic path (src/app.rs line 113)
from ordinary configuration errors. -/
inductive BuildResult (α : Type) where
  | ok : α → BuildResult α
  | err : Error → BuildResult α
  | panicked : String → BuildResult α
  deriving DecidableEq

/-- Mirrors `AdminRunner` (src/app.rs lines 295-301). -/
structure AdminRunner where
  addr : SocketAddr
  reporter : Reporter
  resolvers : List Executor
  grace : Duration
  metrics_interval : Duration
  deriving DecidableEq

/-- Mirrors `App` (src/app.rs lines 170-175). -/
structure App where
  routers : List RouterSpawner
  admin : AdminRunner
  deriving DecidableEq

/-- The router loop of `into_app` (src/app.rs lines 106-116): build each
router, `take()` its resolver executor (`expect` panics when absent), and
push router and executor onto their queues in declared order. -/
def buildRouters (c : Collab) (buf : BufRef) (metrics : Scope) :
    List RouterConfig → BuildResult (List RouterSpawner × List Executor)
  | [] => .ok ([], [])
  | config :: rest =>
    match config.into_router c buf metrics with
    | .error e => .err e
    | .ok r =>
      match r.resolver_executor with
      | none => .panicked "router missing resolver executor"
      | some e =>
        match buildRouters c buf metrics rest with
        | .panicked m => .panicked m
        | .err e2 => .err e2
        | .ok p =>
          .ok ({ r with resolver_executor := none } :: p.1, e :: p.2)

/-- The metrics scope all routers are built under: `tacho::new()` prefixed
with "l5d" (src/app.rs lines 98-99). -/
def initialScope : Scope := tachoNew.1.prefixed "l5d"

/-- Mirrors `AppConfig::into_app` (src/app.rs lines 91-162). -/
def AppConfig.into_app (self : AppConfig) (c : Collab) (h : Heap) :
    BuildResult (App × Heap) :=
  let sz := self.buffer_size_bytes.getD DEFAULT_BUFFER_SIZE_BYTES
  let alloc := h.alloc (List.replicate sz 0)
  let buf := alloc.1
  let h := alloc.2
  let reporter := tachoNew.2
  let metrics := initialScope
  match buildRouters c buf metrics self.routers with
  | .panicked m => .panicked m
  | .err e => .err e
  | .ok p =>
    let routers := p.1
    let resolvers := p.2
    let addr : SocketAddr :=
      ⟨(self.admin.bind fun a => a.ip).getD localhost_addr,
       (self.admin.bind fun a => a.port).getD DEFAULT_ADMIN_PORT⟩
    let grace :=
      Duration.from_secs ((self.admin.bind fun a => a.grace_secs).getD DEFAULT_GRACE_SECS)
    let metrics_interval :=
      Duration.from_secs
        ((self.admin.bind fun a => a.metrics_interval_secs).getD DEFAULT_METRICS_INTERVAL_SECS)
    .ok (⟨routers, ⟨addr, reporter, resolvers, grace, metrics_interval⟩⟩, h)

/-! ## Parsing model: `impl FromStr for AppConfig` (src/app.rs lines 75-87)

`serde_json::from_str` / `serde_yaml::from_str` first parse text into a
generic value and then run the derived `Deserialize` impl.  Text-level
parsing is collaborator code (the serde crates); the derived impls (with
`deny_unknown_fields` and `rename_all = "camelCase"`) are driven by the
attributes in src/app.rs and are modelled concretely below over a generic
parsed value `JValue`. -/

/-- The generic parsed document value shared by the JSON and YAML paths. -/
inductive JValue where
  | null : JValue
  | bool : Bool → JValue
  | num : Int → JValue
  | str : String → JValue
  | arr : List JValue → JValue
  | obj : List (String × JValue) → JValue

/-- The collaborator deserializers the derived impls delegate to, plus the
field set of the external `NamerdConfig` schema. -/
structure DecodeCollab where
  decodeIp : JValue → Except DeErr IpAddr
  decodeServerConfig : JValue → Except DeErr ServerConfig
  decodeConnectorConfig : JValue → Except DeErr ConnectorFactoryConfig
  namerdKeys : List String
  mkNamerd : List (String × JValue) → NamerdConfig

/-- First binding of a field in a serde map. -/
def getField (fields : List (String × JValue)) (k : String) : Option JValue :=
  (fields.find? fun kv => kv.1 == k).map fun kv => kv.2

/-- Does the object carry a key outside the known field set?  (With
`deny_unknown_fields`, such a key is a hard error.) -/
def hasUnknownKey (known : List String) (fields : List (String × JValue)) : Bool :=
  fields.any fun kv => !(known.contains kv.1)

/-- Decode an `Option` field: absent or `null` is `None`. -/
def decodeOptField (f : JValue → Except DeErr α) :
    Option JValue → Except DeErr (Option α)
  | none => .ok none
  | some .null => .ok none
  | some v => (f v).map some

/-- Decode an unsigned integer (usize/u64). -/
def decodeNat : JValue → Except DeErr Nat
  | .num n => if 0 ≤ n then .ok n.toNat else .error .typeMismatch
  | _ => .error .typeMismatch

/-- Decode a u16 (the admin port). -/
def decodeNat16 : JValue → Except DeErr Nat
  | .num n => if 0 ≤ n ∧ n < 65536 then .ok n.toNat else .error .typeMismatch
  | _ => .error .typeMismatch

/-- Decode a string. -/
def decodeStr : JValue → Except DeErr String
  | .str s => .ok s
  | _ => .error .typeMismatch

/-- Decode each element of a sequence, failing on the first error. -/
def decodeList (f : JValue → Except DeErr α) : List JValue → Except DeErr (List α)
  | [] => .ok []
  | v :: rest =>
    match f v with
    | .error e => .error e
    | .ok a =>
      match decodeList f rest with
      | .error e => .error e
      | .ok xs => .ok (a :: xs)

/-- The camelCase wire keys of `AppConfig` (src/app.rs lines 62-73). -/
def appConfigKeys : List String := ["admin", "routers", "bufferSizeBytes"]

/-- The camelCase wire keys of `RouterConfig` (src/app.rs lines 178-194). -/
def routerConfigKeys : List String := ["label", "servers", "client", "interpreter"]

/-- The camelCase wire keys of `AdminConfig` (src/app.rs lines 277-292). -/
def adminConfigKeys : List String := ["port", "ip", "metricsIntervalSecs", "graceSecs"]

/-- Modelled from the spec: the `NamerdConfig` deserializer lives in the
resolver module (not under src/); per the spec, "All objects reject
unrecognized keys", so it rejects any field outside its (abstract) known
set `dc.namerdKeys`. -/
def decodeNamerdConfig (dc : DecodeCollab) (fields : List (String × JValue)) :
    Except DeErr NamerdConfig :=
  match fields.find? fun kv => !(dc.namerdKeys.contains kv.1) with
  | some kv => .error (.unknownField kv.1)
  | none => .ok (dc.mkNamerd fields)

/-- The field-level part of the internally tagged `InterpreterConfig`
deserializer (src/app.rs lines 268-274): dispatch on the `kind`
discriminator; only `io.l5d.namerd.http` is recognized; the remaining
fields feed the variant's `NamerdConfig`. -/
def decodeInterpreterFields (dc : DecodeCollab) (fields : List (String × JValue)) :
    Except DeErr InterpreterConfig :=
  match getField fields "kind" with
  | some (.str k) =>
    if k == "io.l5d.namerd.http" then
      match decodeNamerdConfig dc (fields.filter fun kv => !(kv.1 == "kind")) with
      | .error e => .error e
      | .ok nc => .ok (.namerdHttp nc)
    else .error (.badKind k)
  | some _ => .error .typeMismatch
  | none => .error (.missingField "kind")

/-- The derived deserializer of `InterpreterConfig`. -/
def decodeInterpreterConfig (dc : DecodeCollab) : JValue → Except DeErr InterpreterConfig
  | .obj fields => decodeInterpreterFields dc fields
  | _ => .error .typeMismatch

/-- The field-level part of the derived `AdminConfig` deserializer:
`deny_unknown_fields`, camelCase keys, every field optional. -/
def decodeAdminFields (dc : DecodeCollab) (fields : List (String × JValue)) :
    Except DeErr AdminConfig :=
  match fields.find? fun kv => !(adminConfigKeys.contains kv.1) with
  | some kv => .error (.unknownField kv.1)
  | none =>
    match decodeOptField decodeNat16 (getField fields "port") with
    | .error e => .error e
    | .ok port =>
      match decodeOptField dc.decodeIp (getField fields "ip") with
      | .error e => .error e
      | .ok ip =>
        match decodeOptField decodeNat (getField fields "metricsIntervalSecs") with
        | .error e => .error e
        | .ok mis =>
          match decodeOptField decodeNat (getField fields "graceSecs") with
          | .error e => .error e
          | .ok gs => .ok ⟨port, ip, mis, gs⟩

/-- The derived deserializer of `AdminConfig`. -/
def decodeAdminConfig (dc : DecodeCollab) : JValue → Except DeErr AdminConfig
  | .obj fields => decodeAdminFields dc fields
  | _ => .error .typeMismatch

/-- The field-level part of the derived `RouterConfig` deserializer:
`deny_unknown_fields`, camelCase keys; `label`, `servers`, `interpreter`
required, `client` optional. -/
def decodeRouterFields (dc : DecodeCollab) (fields : List (String × JValue)) :
    Except DeErr RouterConfig :=
  match fields.find? fun kv => !(routerConfigKeys.contains kv.1) with
  | some kv => .error (.unknownField kv.1)
  | none =>
    match getField fields "label" with
    | none => .error (.missingField "label")
    | some lv =>
      match decodeStr lv with
      | .error e => .error e
      | .ok label =>
        match getField fields "servers" with
        | none => .error (.missingField "servers")
        | some (JValue.arr svs) =>
          match decodeList dc.decodeServerConfig svs with
          | .error e => .error e
          | .ok servers =>
            match decodeOptField dc.decodeConnectorConfig (getField fields "client") with
            | .error e => .error e
            | .ok client =>
              match getField fields "interpreter" with
              | none => .error (.missingField "interpreter")
              | some iv =>
                match decodeInterpreterConfig dc iv with
                | .error e => .error e
                | .ok interp => .ok ⟨label, servers, client, interp⟩
        | some _ => .error .typeMismatch

/-- The derived deserializer of `RouterConfig`. -/
def decodeRouterConfig (dc : DecodeCollab) : JValue → Except DeErr RouterConfig
  | .obj fields => decodeRouterFields dc fields
  | _ => .error .typeMismatch

/-- The field-level part of the derived `AppConfig` deserializer:
`deny_unknown_fields`, camelCase keys; `routers` required, `admin` and
`bufferSizeBytes` optional. -/
def decodeAppFields (dc : DecodeCollab) (fields : List (String × JValue)) :
    Except DeErr AppConfig :=
  match fields.find? fun kv => !(appConfigKeys.contains kv.1) with
  | some kv => .error (.unknownField kv.1)
  | none =>
    match decodeOptField (decodeAdminConfig dc) (getField fields "admin") with
    | .error e => .error e
    | .ok admin =>
      match getField fields "routers" with
      | none => .error (.missingField "routers")
      | some (JValue.arr rvs) =>
        match decodeList (decodeRouterConfig dc) rvs with
        | .error e => .error e
        | .ok routers =>
          match decodeOptField decodeNat (getField fields "bufferSizeBytes") with
          | .error e => .error e
          | .ok bsz => .ok ⟨admin, routers, bsz⟩
      | some _ => .error .typeMismatch

/-- The derived deserializer of `AppConfig`. -/
def decodeAppConfig (dc : DecodeCollab) : JValue → Except DeErr AppConfig
  | .obj fields => decodeAppFields dc fields
  | _ => .error .typeMismatch

/-- The text-level parsers of the serde crates (collaborator code): text
(modelled as its character list) to generic value, or a syntax error. -/
structure ParseCollab where
  jsonParse : List Char → Except Nat JValue
  yamlParse : List Char → Except Nat JValue

/-- Rust's `str::trim_start`: drop leading whitespace. -/
def trim_start (s : List Char) : List Char := s.dropWhile Char.isWhitespace

/-- Rust's `str::starts_with(char)`: does the first character equal `c`? -/
def starts_with (s : List Char) (c : Char) : Bool :=
  match s with
  | [] => false
  | c0 :: _ => c0 == c

/-- Mirrors `<AppConfig as FromStr>::from_str` (src/app.rs lines 79-86): trim
leading whitespace; text starting with a left brace takes the JSON path
(errors wrapped as `Error::Json`), anything else the YAML path (errors
wrapped as `Error::Yaml`).  Text is modelled as its character list. -/
def AppConfig.from_str (p : ParseCollab) (dc : DecodeCollab) (txt : List Char) :
    Except Error AppConfig :=
  let txt := trim_start txt
  if starts_with txt '\x7b' then
    match p.jsonParse txt with
    | .error e => .error (.json (.synErr e))
    | .ok v =>
      match decodeAppConfig dc v with
      | .error d => .error (.json (.deErr d))
      | .ok cfg => .ok cfg
  else
    match p.yamlParse txt with
    | .error e => .error (.yaml (.synErr e))
    | .ok v =>
      match decodeAppConfig dc v with
      | .error d => .error (.yaml (.deErr d))
      | .ok cfg => .ok cfg

/-! ## The shutdown latch (src/app.rs lines 50-59)

`closer()` returns `futures::sync::oneshot::channel()`.  The channel
implementation is in the external futures crate, so its contract is
modelled from the spec: a single-use latch whose send consumes the latch;
a second send observes that the latch is already used and returns an error
value instead of panicking. -/

/-- Modelled from the spec: the state of the oneshot shutdown latch created
by `closer()` — either still empty or already fired with a deadline. -/
inductive LatchState where
  | empty : LatchState
  | fired : Instant → LatchState
  deriving DecidableEq

/-- Modelled from the spec: the outcome an attempted send observes. -/
inductive SendResult where
  | accepted : SendResult
  | alreadyUsed : SendResult
  deriving DecidableEq

/-- Mirrors `closer()` (src/app.rs lines 57-59): a fresh, unfired latch. -/
def closer : LatchState := .empty

/-- Modelled from the spec: sending on the latch.  The first send fires the
latch with its deadline; any later send leaves the latch untouched and
returns the `alreadyUsed` error. -/
def latchSend (s : LatchState) (d : Instant) : LatchState × SendResult :=
  match s with
  | .empty => (.fired d, .accepted)
  | .fired d0 => (.fired d0, .alreadyUsed)

/-- Modelled from the spec: what the `Closed` receiver observes. -/
def latchRecv (s : LatchState) : Option Instant :=
  match s with
  | .empty => none
  | .fired d => some d

/-- Run a whole sequence of send attempts against the latch. -/
def runSends (s : LatchState) : List Instant → LatchState × List SendResult
  | [] => (s, [])
  | d :: rest =>
    let step := latchSend s d
    let next := runSends step.1 rest
    (next.1, step.2 :: next.2)

/-! ## The metrics-export loop of `AdminRunner::run` (src/app.rs lines 322-338)

`reporter.take()` is tacho collaborator code; modelled from the spec as
snapshot-and-reset.  The loop body itself (take the report, clear the
reusable export buffer, render the report into it) is src/app.rs lines
328-334, modelled concretely. -/

/-- Modelled from the spec: `tacho` counter increments accumulate on the
reporter between export firings. -/
def Reporter.incr (r : Reporter) (k : String) (n : Nat) : Reporter :=
  ⟨r.counts ++ [(k, n)]⟩

/-- Modelled from the spec: `reporter.take()` is snapshot-and-reset — it
returns everything accumulated and leaves the reporter empty. -/
def Reporter.take (r : Reporter) : List (String × Nat) × Reporter :=
  (r.counts, ⟨[]⟩)

/-- Render a report in the prometheus text exposition format (the exact
format is tacho collaborator code; only clearing/repopulation matter). -/
def render (report : List (String × Nat)) : String :=
  String.join (report.map fun kv => kv.1 ++ " " ++ toString kv.2 ++ "\n")

/-- State threaded through the metrics-export loop: the reporter and the
reusable export buffer `prom_export` (src/app.rs line 322). -/
structure MetricsLoopState where
  reporter : Reporter
  prom_export : String
  deriving DecidableEq

/-- One firing of the export interval (src/app.rs lines 328-334): take the
report (snapshot-and-reset), clear `prom_export`, render the report into
it.  Also returns the snapshot taken. -/
def metricsTick (st : MetricsLoopState) : MetricsLoopState × List (String × Nat) :=
  let taken := st.reporter.take
  let cleared : String := ""
  let filled := cleared ++ render taken.1
  (⟨taken.2, filled⟩, taken.1)

/-- Apply a period's worth of counter increments to the reporter. -/
def applyIncrs (r : Reporter) : List (String × Nat) → Reporter
  | [] => r
  | (k, n) :: rest => applyIncrs (r.incr k n) rest

/-- Run the export loop over a list of periods (the increments arriving
between consecutive firings), collecting the snapshot of each firing and
the final loop state. -/
def runMetrics (st : MetricsLoopState) :
    List (List (String × Nat)) → MetricsLoopState × List (List (String × Nat))
  | [] => (st, [])
  | period :: rest =>
    let st1 := { st with reporter := applyIncrs st.reporter period }
    let fired := metricsTick st1
    let next := runMetrics fired.1 rest
    (next.1, fired.2 :: next.2)

/-! ## The admin accept loop of `AdminRunner::run` (src/app.rs lines 350-359)

`listener.incoming().for_each(...)`: for every accepted connection, the
serve future (hyper collaborator code; outcome abstracted as a function of
the connection) is wrapped in `map_err` that only logs, then spawned; the
`for_each` closure returns `Ok(())` unconditionally, so the loop continues.
A closure error would terminate the whole `for_each`. -/

/-- An accepted admin TCP connection. -/
structure Conn where
  id : Nat
  deriving DecidableEq

/-- The outcome of serving one admin connection (hyper collaborator code,
abstracted per connection). -/
inductive ServeOutcome where
  | served : ServeOutcome
  | failed : Nat → ServeOutcome
  deriving DecidableEq

/-- Observable state of the accept loop: connections handed to spawned
serve tasks, and errors logged by the per-connection `map_err`. -/
structure AcceptState where
  spawned : List Conn
  logged : List Nat
  deriving DecidableEq

/-- The `for_each` closure body (src/app.rs lines 350-359): wrap the serve
outcome so a failure is only logged, spawn the serve task, and return
`Ok(())` — never an error, whatever the serve outcome. -/
def acceptStep (outcome : Conn → ServeOutcome) (st : AcceptState) (tcp : Conn) :
    Except Unit AcceptState :=
  let logged :=
    match outcome tcp with
    | .served => st.logged
    | .failed e => st.logged ++ [e]
  Except.ok { spawned := st.spawned ++ [tcp], logged := logged }

/-- The `for_each` over the stream of accepted connections: stops early only if
the closure returns an error. -/
def acceptLoop (outcome : Conn → ServeOutcome) (st : AcceptState) :
    List Conn → Except Unit AcceptState
  | [] => .ok st
  | tcp :: rest =>
    match acceptStep outcome st tcp with
    | .error e => .error e
    | .ok st1 => acceptLoop outcome st1 rest

/-! ## Concrete instantiations of the collaborator parameters -/

/-- A collaborator instantiation in which every translation succeeds. -/
def okCollab : Collab where
  intoNamerd := fun _ _ => .ok ⟨0⟩
  resolverNew := fun n => (⟨n.payload⟩, ⟨n.payload + 1⟩)
  mkConnectorFactory := fun _ => .ok ⟨0⟩
  balancerNew := fun _ _ => ⟨0⟩
  routerNew := fun _ _ _ => ⟨0⟩
  mkServerCore := fun _ _ _ => .ok ⟨0⟩

/-- A collaborator instantiation whose interpreter translation fails. -/
def badNamerdCollab : Collab where
  intoNamerd := fun _ _ => .error ⟨7⟩
  resolverNew := fun n => (⟨n.payload⟩, ⟨n.payload + 1⟩)
  mkConnectorFactory := fun _ => .ok ⟨0⟩
  balancerNew := fun _ _ => ⟨0⟩
  routerNew := fun _ _ _ => ⟨0⟩
  mkServerCore := fun _ _ _ => .ok ⟨0⟩

def sampleRouter : RouterConfig := ⟨"r1", [⟨0⟩], none, .namerdHttp ⟨0⟩⟩

def sampleAdminAllNone : AdminConfig := ⟨none, none, none, none⟩

def sampleConfig : AppConfig := ⟨some sampleAdminAllNone, [sampleRouter], some 4⟩

def sampleSpawner : RouterSpawner := ⟨[⟨⟨0⟩, ⟨0⟩⟩], some ⟨1⟩⟩

def sampleApp : App :=
  ⟨[⟨[⟨⟨0⟩, ⟨0⟩⟩], none⟩],
   ⟨⟨localhost_addr, 9989⟩, ⟨[]⟩, [⟨1⟩], ⟨10⟩, ⟨60⟩⟩⟩

def sampleHeap : Heap := ⟨[[0, 0, 0, 0]]⟩

/-- Trivial instantiation of the collaborator deserializers. -/
def sampleDecode : DecodeCollab where
  decodeIp := fun _ => .ok localhost_addr
  decodeServerConfig := fun _ => .ok ⟨0⟩
  decodeConnectorConfig := fun _ => .ok ⟨0⟩
  namerdKeys := ["baseUrl", "path"]
  mkNamerd := fun _ => ⟨0⟩

/-- Text-level parsers that return a fixed parsed value. -/
def constParse (v : JValue) : ParseCollab where
  jsonParse := fun _ => .ok v
  yamlParse := fun _ => .ok v

/-! ## Lemmas about the topology builder -/

/-- Every successfully built `RouterSpawner` carries its resolver executor
present (`into_router` always fills the field with `Some`). -/
theorem into_router_exec_some (c : Collab) (rc : RouterConfig) (buf : BufRef)
    (m : Scope) (r : RouterSpawner) (h : rc.into_router c buf m = .ok r) :
    ∃ e, r.resolver_executor = some e := by
  unfold RouterConfig.into_router at h
  simp only at h
  split at h
  · cases h
  · split at h
    · cases h
    · split at h
      · cases h
      · cases h; exact ⟨_, rfl⟩

/-- The server loop `mkServers` only produces `Server` configuration errors. -/
theorem mkServers_err_kind (c : Collab) (router : Router) (buf : BufRef) (m : Scope)
    (l : List ServerConfig) (e : Error) (h : mkServers c router buf m l = .error e) :
    ∃ x, e = .server x := by
  induction l with
  | nil => simp [mkServers] at h
  | cons cfg rest ih =>
    unfold mkServers at h
    cases hs : mk_server c cfg router buf m with
    | error e0 =>
      rw [hs] at h
      simp only [Except.error.injEq] at h
      exact ⟨e0, h.symm⟩
    | ok s =>
      rw [hs] at h
      cases hr : mkServers c router buf m rest with
      | error e1 =>
        rw [hr] at h
        simp only [Except.error.injEq] at h
        subst h
        exact ih hr
      | ok ss => rw [hr] at h; simp at h

/-- The builder `into_router` fails only with Interpreter, Connector or Server
configuration errors. -/
theorem into_router_err_kind (c : Collab) (rc : RouterConfig) (buf : BufRef)
    (m : Scope) (e : Error) (h : rc.into_router c buf m = .error e) :
    (∃ x, e = .interpreter x) ∨ (∃ x, e = .connector x) ∨ (∃ x, e = .server x) := by
  unfold RouterConfig.into_router at h
  simp only at h
  split at h
  next e0 heq => cases h; exact Or.inl ⟨e0, rfl⟩
  next namerd heq =>
    split at h
    next e0 heqC => cases h; exact Or.inr (Or.inl ⟨e0, rfl⟩)
    next client heqC =>
      split at h
      next e0 heqS => cases h; exact Or.inr (Or.inr (mkServers_err_kind _ _ _ _ _ _ heqS))
      next servers heqS => cases h

/-- Pointwise description of a successful `buildRouters` run: one spawner
and one executor per declared router, in declared order, the spawner being
the built router with its executor taken out. -/
theorem buildRouters_spec (c : Collab) (buf : BufRef) (m : Scope) (l : List RouterConfig)
    (rs : List RouterSpawner) (es : List Executor)
    (h : buildRouters c buf m l = .ok (rs, es)) :
    rs.length = l.length ∧ es.length = l.length ∧
    ∀ (i : Nat) (rc : RouterConfig), l[i]? = some rc →
      ∃ (r : RouterSpawner) (e : Executor),
        rc.into_router c buf m = .ok r ∧ r.resolver_executor = some e ∧
        rs[i]? = some { r with resolver_executor := none } ∧ es[i]? = some e := by
  induction l generalizing rs es with
  | nil =>
    simp only [buildRouters, BuildResult.ok.injEq, Prod.mk.injEq] at h
    obtain ⟨h1, h2⟩ := h
    subst h1; subst h2
    refine ⟨rfl, rfl, ?_⟩
    intro i rc hrc
    simp at hrc
  | cons cfg rest ih =>
    unfold buildRouters at h
    split at h
    next e heq => cases h
    next r heq =>
      split at h
      next hexec => cases h
      next e hexec =>
        split at h
        next m2 heqB => cases h
        next e2 heqB => cases h
        next p heqB =>
          cases h
          obtain ⟨hl1, hl2, hpt⟩ := ih p.1 p.2 (by rw [heqB])
          refine ⟨by simp [hl1], by simp [hl2], ?_⟩
          intro i rc hrc
          cases i with
          | zero =>
            simp only [List.getElem?_cons_zero, Option.some.injEq] at hrc
            subst hrc
            exact ⟨r, e, heq, hexec, by simp, by simp⟩
          | succ i =>
            simp only [List.getElem?_cons_succ] at hrc ⊢
            exact hpt i rc hrc

/-- Inversion of a successful `into_app`: the routers/resolvers come from
`buildRouters` over the allocated shared buffer and the `l5d` scope, the
heap gains exactly the one zero-filled buffer, and the admin fields are
each computed from their own `AdminConfig` field. -/
theorem into_app_ok_inv (c : Collab) (cfg : AppConfig) (h : Heap) (app : App) (h2 : Heap)
    (hok : cfg.into_app c h = .ok (app, h2)) :
    buildRouters c ⟨h.bufs.length⟩ initialScope cfg.routers =
      .ok (app.routers, app.admin.resolvers) ∧
    h2 = ⟨h.bufs ++ [List.replicate (cfg.buffer_size_bytes.getD DEFAULT_BUFFER_SIZE_BYTES) 0]⟩ ∧
    app.admin.reporter = ⟨[]⟩ ∧
    app.admin.addr = ⟨(cfg.admin.bind fun a => a.ip).getD localhost_addr,
                      (cfg.admin.bind fun a => a.port).getD DEFAULT_ADMIN_PORT⟩ ∧
    app.admin.grace =
      Duration.from_secs ((cfg.admin.bind fun a => a.grace_secs).getD DEFAULT_GRACE_SECS) ∧
    app.admin.metrics_interval =
      Duration.from_secs
        ((cfg.admin.bind fun a => a.metrics_interval_secs).getD DEFAULT_METRICS_INTERVAL_SECS) := by
  unfold AppConfig.into_app at hok
  simp only at hok
  simp only [Heap.alloc] at hok
  split at hok
  next m2 heqB => cases hok
  next e heqB => cases hok
  next p heqB =>
    cases hok
    exact ⟨by simp [heqB], rfl, rfl, rfl, rfl, rfl⟩

/-- The first router whose translation fails determines the result of the
router loop: its error, with nothing built. -/
theorem buildRouters_err (c : Collab) (buf : BufRef) (m : Scope) (l : List RouterConfig)
    (i : Nat) (rc : RouterConfig) (e : Error)
    (hget : l[i]? = some rc)
    (hpre : ∀ (j : Nat) (rcj : RouterConfig), j < i → l[j]? = some rcj →
      ∃ r, rcj.into_router c buf m = .ok r)
    (hfail : rc.into_router c buf m = .error e) :
    buildRouters c buf m l = .err e := by
  induction l generalizing i with
  | nil => simp at hget
  | cons cfg rest ih =>
    cases i with
    | zero =>
      simp only [List.getElem?_cons_zero, Option.some.injEq] at hget
      subst hget
      unfold buildRouters
      simp only [hfail]
    | succ i =>
      simp only [List.getElem?_cons_succ] at hget
      obtain ⟨r0, hr0⟩ := hpre 0 cfg (Nat.succ_pos i) (by simp)
      obtain ⟨e0, he0⟩ := into_router_exec_some c cfg buf m r0 hr0
      have hrest : buildRouters c buf m rest = .err e := by
        apply ih i hget
        intro j rcj hj hgetj
        exact hpre (j + 1) rcj (Nat.succ_lt_succ hj) (by simpa using hgetj)
      unfold buildRouters
      simp only [hr0, he0, hrest]

/-- The `expect`-panic of `into_app` (src/app.rs line 113) is unreachable:
the router loop never produces the panicked outcome. -/
theorem buildRouters_no_panic (c : Collab) (buf : BufRef) (m : Scope)
    (l : List RouterConfig) (msg : String) :
    buildRouters c buf m l ≠ .panicked msg := by
  induction l with
  | nil => simp [buildRouters]
  | cons cfg rest ih =>
    intro h
    unfold buildRouters at h
    split at h
    next e heq => cases h
    next r heq =>
      split at h
      next hexec =>
        obtain ⟨e0, he0⟩ := into_router_exec_some c cfg buf m r heq
        rw [hexec] at he0
        cases he0
      next e hexec =>
        split at h
        next m2 heqB => cases h; exact ih heqB
        next e2 heqB => cases h
        next p heqB => cases h

/-- A server built by `mk_server` holds exactly the buffer reference it was
handed. -/
theorem mk_server_buf (c : Collab) (cfg : ServerConfig) (router : Router) (buf : BufRef)
    (m : Scope) (s : Unbound) (h : mk_server c cfg router buf m = .ok s) : s.buf = buf := by
  unfold mk_server at h
  cases hc : c.mkServerCore cfg router m with
  | error e => rw [hc] at h; simp [Except.map] at h
  | ok core =>
    rw [hc] at h
    simp only [Except.map, Except.ok.injEq] at h
    rw [← h]

/-- All servers built by the server loop hold the shared buffer reference. -/
theorem mkServers_buf (c : Collab) (router : Router) (buf : BufRef) (m : Scope)
    (l : List ServerConfig) (ss : List Unbound) (h : mkServers c router buf m l = .ok ss) :
    ∀ s ∈ ss, s.buf = buf := by
  induction l generalizing ss with
  | nil =>
    simp only [mkServers, Except.ok.injEq] at h
    subst h
    simp
  | cons cfg rest ih =>
    unfold mkServers at h
    split at h
    next e heq => cases h
    next s0 heq =>
      split at h
      next e heq2 => cases h
      next ss2 heq2 =>
        cases h
        intro s' hs'
        cases hs' with
        | head => exact mk_server_buf c cfg router buf m s0 heq
        | tail _ hmem => exact ih ss2 heq2 s' hmem

/-- All servers of a built router hold the shared buffer reference. -/
theorem into_router_buf (c : Collab) (rc : RouterConfig) (buf : BufRef) (m : Scope)
    (r : RouterSpawner) (h : rc.into_router c buf m = .ok r) :
    ∀ s ∈ r.servers, s.buf = buf := by
  unfold RouterConfig.into_router at h
  simp only at h
  split at h
  · cases h
  · split at h
    · cases h
    · split at h
      · cases h
      next servers heqS =>
        cases h
        intro s hs
        exact mkServers_buf _ _ _ _ _ _ heqS s hs

/-- All servers across all routers built by the router loop hold the shared
buffer reference. -/
theorem buildRouters_buf (c : Collab) (buf : BufRef) (m : Scope) (l : List RouterConfig)
    (rs : List RouterSpawner) (es : List Executor)
    (h : buildRouters c buf m l = .ok (rs, es)) :
    ∀ r ∈ rs, ∀ s ∈ r.servers, s.buf = buf := by
  induction l generalizing rs es with
  | nil =>
    simp only [buildRouters, BuildResult.ok.injEq, Prod.mk.injEq] at h
    obtain ⟨h1, _⟩ := h
    subst h1
    simp
  | cons cfg rest ih =>
    unfold buildRouters at h
    split at h
    next e heq => cases h
    next r heq =>
      split at h
      next hexec => cases h
      next e hexec =>
        split at h
        next m2 heqB => cases h
        next e2 heqB => cases h
        next p heqB =>
          cases h
          intro r' hr' s hs
          cases hr' with
          | head => exact into_router_buf c cfg buf m r heq s hs
          | tail _ hmem => exact ih p.1 p.2 (by rw [heqB]) r' hmem s hs

/-! ## Claim theorems -/

/-- C1: for every AppConfig with N entries in its routers sequence on which
`into_app` succeeds, the returned App contains exactly N RouterSpawners and
its AdminRunner owns exactly N resolver Executors, both collections pairing
up pointwise, in declared order, with the declared routers. -/
theorem c1_topology (c : Collab) (cfg : AppConfig) (h : Heap) (app : App) (h2 : Heap)
    (hok : cfg.into_app c h = .ok (app, h2)) :
    app.routers.length = cfg.routers.length ∧
    app.admin.resolvers.length = cfg.routers.length ∧
    ∀ (i : Nat) (rc : RouterConfig), cfg.routers[i]? = some rc →
      ∃ (r : RouterSpawner) (e : Executor),
        rc.into_router c ⟨h.bufs.length⟩ initialScope = .ok r ∧
        r.resolver_executor = some e ∧
        app.routers[i]? = some { r with resolver_executor := none } ∧
        app.admin.resolvers[i]? = some e := by
  obtain ⟨hbr, _⟩ := into_app_ok_inv c cfg h app h2 hok
  exact buildRouters_spec c ⟨h.bufs.length⟩ initialScope cfg.routers app.routers
    app.admin.resolvers hbr

theorem c1_topology_witness :
    sampleApp.routers.length = sampleConfig.routers.length ∧
    sampleApp.admin.resolvers.length = sampleConfig.routers.length :=
  ⟨(c1_topology okCollab sampleConfig ⟨[]⟩ sampleApp sampleHeap rfl).1,
   (c1_topology okCollab sampleConfig ⟨[]⟩ sampleApp sampleHeap rfl).2.1⟩

/-- C2: if translating any interpreter, connector or server configuration
fails (the first failing router yielding error `e`, necessarily an
Interpreter, Connector or Server configuration error), then `into_app`
returns exactly that error and no App value at all. -/
theorem c2_fail_fast (c : Collab) (cfg : AppConfig) (h : Heap)
    (i : Nat) (rc : RouterConfig) (e : Error)
    (hget : cfg.routers[i]? = some rc)
    (hpre : ∀ (j : Nat) (rcj : RouterConfig), j < i → cfg.routers[j]? = some rcj →
      ∃ r, rcj.into_router c ⟨h.bufs.length⟩ initialScope = .ok r)
    (hfail : rc.into_router c ⟨h.bufs.length⟩ initialScope = .error e) :
    cfg.into_app c h = .err e ∧
    ((∃ x, e = .interpreter x) ∨ (∃ x, e = .connector x) ∨ (∃ x, e = .server x)) ∧
    (∀ (app : App) (h2 : Heap), cfg.into_app c h ≠ .ok (app, h2)) := by
  have hbr := buildRouters_err c ⟨h.bufs.length⟩ initialScope cfg.routers i rc e
    hget hpre hfail
  have happ : cfg.into_app c h = .err e := by
    unfold AppConfig.into_app
    simp only [Heap.alloc]
    simp only [hbr]
  refine ⟨happ, into_router_err_kind c rc _ initialScope e hfail, ?_⟩
  intro app h2 hok
  rw [happ] at hok
  cases hok

theorem c2_fail_fast_witness :
    sampleConfig.into_app badNamerdCollab ⟨[]⟩ = .err (.interpreter ⟨7⟩) ∧
    (∀ (app : App) (h2 : Heap),
      sampleConfig.into_app badNamerdCollab ⟨[]⟩ ≠ .ok (app, h2)) :=
  ⟨(c2_fail_fast badNamerdCollab sampleConfig ⟨[]⟩ 0 sampleRouter (.interpreter ⟨7⟩)
      rfl (fun j _ hj _ => absurd hj (Nat.not_lt_zero j)) rfl).1,
   (c2_fail_fast badNamerdCollab sampleConfig ⟨[]⟩ 0 sampleRouter (.interpreter ⟨7⟩)
      rfl (fun j _ hj _ => absurd hj (Nat.not_lt_zero j)) rfl).2.2⟩

/-- C3: a successful `into_app` allocates exactly one transfer buffer,
zero-filled, of length `bufferSizeBytes` (default 16384), and every server
of every built router references that identical buffer. -/
theorem c3_shared_buffer (c : Collab) (cfg : AppConfig) (h : Heap) (app : App) (h2 : Heap)
    (hok : cfg.into_app c h = .ok (app, h2)) :
    h2.bufs = h.bufs ++
      [List.replicate (cfg.buffer_size_bytes.getD DEFAULT_BUFFER_SIZE_BYTES) 0] ∧
    h2.lookup ⟨h.bufs.length⟩ =
      some (List.replicate (cfg.buffer_size_bytes.getD DEFAULT_BUFFER_SIZE_BYTES) 0) ∧
    ∀ r ∈ app.routers, ∀ s ∈ r.servers, s.buf = (⟨h.bufs.length⟩ : BufRef) := by
  obtain ⟨hbr, hh2, _⟩ := into_app_ok_inv c cfg h app h2 hok
  refine ⟨by rw [hh2], ?_,
    buildRouters_buf c _ initialScope cfg.routers app.routers app.admin.resolvers hbr⟩
  rw [hh2]
  unfold Heap.lookup
  simp

theorem c3_shared_buffer_witness :
    sampleHeap.bufs = [] ++ [List.replicate 4 0] ∧
    (∀ r ∈ sampleApp.routers, ∀ s ∈ r.servers, s.buf = (⟨0⟩ : BufRef)) :=
  ⟨(c3_shared_buffer okCollab sampleConfig ⟨[]⟩ sampleApp sampleHeap rfl).1,
   (c3_shared_buffer okCollab sampleConfig ⟨[]⟩ sampleApp sampleHeap rfl).2.2⟩

/-- C6: the built AdminRunner computes each admin field from its own
`AdminConfig` field alone (independent defaulting), and with every field
omitted uses 127.0.0.1:9989, grace 10s and metrics interval 60s. -/
theorem c6_admin_defaults (c : Collab) (cfg : AppConfig) (h : Heap) (app : App) (h2 : Heap)
    (hok : cfg.into_app c h = .ok (app, h2)) :
    (app.admin.addr.ip = (cfg.admin.bind fun a => a.ip).getD localhost_addr ∧
     app.admin.addr.port = (cfg.admin.bind fun a => a.port).getD DEFAULT_ADMIN_PORT ∧
     app.admin.grace =
       Duration.from_secs ((cfg.admin.bind fun a => a.grace_secs).getD DEFAULT_GRACE_SECS) ∧
     app.admin.metrics_interval =
       Duration.from_secs
         ((cfg.admin.bind fun a => a.metrics_interval_secs).getD
           DEFAULT_METRICS_INTERVAL_SECS)) ∧
    (cfg.admin = some ⟨none, none, none, none⟩ →
      app.admin.addr = ⟨IpAddr.v4 127 0 0 1, 9989⟩ ∧
      app.admin.grace = ⟨10⟩ ∧
      app.admin.metrics_interval = ⟨60⟩) := by
  obtain ⟨_, _, _, haddr, hgrace, hint⟩ := into_app_ok_inv c cfg h app h2 hok
  refine ⟨⟨by rw [haddr], by rw [haddr], hgrace, hint⟩, ?_⟩
  intro hadmin
  exact ⟨by rw [haddr, hadmin]; rfl, by rw [hgrace, hadmin]; rfl,
    by rw [hint, hadmin]; rfl⟩

theorem c6_admin_defaults_witness :
    sampleConfig.admin = some ⟨none, none, none, none⟩ ∧
    sampleApp.admin.addr = ⟨IpAddr.v4 127 0 0 1, 9989⟩ ∧
    sampleApp.admin.grace = ⟨10⟩ ∧
    sampleApp.admin.metrics_interval = ⟨60⟩ :=
  ⟨rfl,
   (c6_admin_defaults okCollab sampleConfig ⟨[]⟩ sampleApp sampleHeap rfl).2 rfl⟩

/-- C7: every RouterSpawner returned by `into_router` carries its executor
present; consequently `into_app` never takes the `expect`-panic path for a
missing executor, and in the built App every spawner has had its executor
extracted (exactly once) into the AdminRunner's queue. -/
theorem c7_executor_invariant (c : Collab) :
    (∀ (rc : RouterConfig) (buf : BufRef) (m : Scope) (r : RouterSpawner),
      rc.into_router c buf m = .ok r → ∃ e, r.resolver_executor = some e) ∧
    (∀ (cfg : AppConfig) (h : Heap) (msg : String), cfg.into_app c h ≠ .panicked msg) ∧
    (∀ (cfg : AppConfig) (h : Heap) (app : App) (h2 : Heap),
      cfg.into_app c h = .ok (app, h2) → ∀ r ∈ app.routers, r.resolver_executor = none) := by
  refine ⟨fun rc buf m r => into_router_exec_some c rc buf m r, ?_, ?_⟩
  · intro cfg h msg hpan
    unfold AppConfig.into_app at hpan
    simp only at hpan
    simp only [Heap.alloc] at hpan
    split at hpan
    next m2 heqB => cases hpan; exact buildRouters_no_panic _ _ _ _ _ heqB
    next e heqB => cases hpan
    next p heqB => cases hpan
  · intro cfg h app h2 hok r hr
    obtain ⟨hbr, _⟩ := into_app_ok_inv c cfg h app h2 hok
    obtain ⟨hlen, _, hpt⟩ := buildRouters_spec c ⟨h.bufs.length⟩ initialScope cfg.routers
      app.routers app.admin.resolvers hbr
    obtain ⟨i, hi⟩ := List.mem_iff_getElem?.mp hr
    have hi' : i < app.routers.length := by
      obtain ⟨hlt, -⟩ := List.getElem?_eq_some.mp hi
      exact hlt
    have hci : i < cfg.routers.length := hlen ▸ hi'
    obtain ⟨r0, e0, _, _, hrs, _⟩ := hpt i (cfg.routers.get ⟨i, hci⟩)
      (by simp [List.getElem?_eq_getElem hci])
    rw [hi] at hrs
    cases hrs
    rfl

theorem c7_executor_invariant_witness :
    (∃ e, sampleSpawner.resolver_executor = some e) ∧
    (sampleConfig.into_app okCollab ⟨[]⟩ ≠ .panicked "router missing resolver executor") ∧
    (∀ r ∈ sampleApp.routers, r.resolver_executor = none) :=
  ⟨(c7_executor_invariant okCollab).1 sampleRouter ⟨0⟩ initialScope sampleSpawner rfl,
   (c7_executor_invariant okCollab).2.1 sampleConfig ⟨[]⟩ "router missing resolver executor",
   (c7_executor_invariant okCollab).2.2 sampleConfig ⟨[]⟩ sampleApp sampleHeap rfl⟩

/-- C5: `from_str` takes the JSON path exactly when the first character
after leading whitespace is a left brace, the YAML path otherwise, and
surfaces parse and decode failures in the matching `Json`/`Yaml` error
variant, never swallowed. -/
theorem c5_format_detection (p : ParseCollab) (dc : DecodeCollab) (txt : List Char) :
    (starts_with (trim_start txt) '\x7b' = true →
      (∀ e, p.jsonParse (trim_start txt) = .error e →
        AppConfig.from_str p dc txt = .error (.json (.synErr e))) ∧
      (∀ v d, p.jsonParse (trim_start txt) = .ok v → decodeAppConfig dc v = .error d →
        AppConfig.from_str p dc txt = .error (.json (.deErr d))) ∧
      (∀ v cfg, p.jsonParse (trim_start txt) = .ok v → decodeAppConfig dc v = .ok cfg →
        AppConfig.from_str p dc txt = .ok cfg)) ∧
    (starts_with (trim_start txt) '\x7b' = false →
      (∀ e, p.yamlParse (trim_start txt) = .error e →
        AppConfig.from_str p dc txt = .error (.yaml (.synErr e))) ∧
      (∀ v d, p.yamlParse (trim_start txt) = .ok v → decodeAppConfig dc v = .error d →
        AppConfig.from_str p dc txt = .error (.yaml (.deErr d))) ∧
      (∀ v cfg, p.yamlParse (trim_start txt) = .ok v → decodeAppConfig dc v = .ok cfg →
        AppConfig.from_str p dc txt = .ok cfg)) := by
  refine ⟨fun hb => ⟨?_, ?_, ?_⟩, fun hb => ⟨?_, ?_, ?_⟩⟩
  · intro e he
    unfold AppConfig.from_str
    simp [hb, he]
  · intro v d hv hd
    unfold AppConfig.from_str
    simp [hb, hv, hd]
  · intro v cfg hv hcfg
    unfold AppConfig.from_str
    simp [hb, hv, hcfg]
  · intro e he
    unfold AppConfig.from_str
    simp [hb, he]
  · intro v d hv hd
    unfold AppConfig.from_str
    simp [hb, hv, hd]
  · intro v cfg hv hcfg
    unfold AppConfig.from_str
    simp [hb, hv, hcfg]

theorem c5_format_detection_witness :
    starts_with (trim_start "  \x7b".data) '\x7b' = true ∧
    AppConfig.from_str (constParse (.obj [("routers", .arr [])])) sampleDecode
      "  \x7b".data = .ok ⟨none, [], none⟩ :=
  ⟨by decide,
   ((c5_format_detection (constParse (.obj [("routers", .arr [])])) sampleDecode
       "  \x7b".data).1
     (by decide)).2.2 (.obj [("routers", .arr [])]) ⟨none, [], none⟩ rfl rfl⟩

/-! ## Unknown-field rejection (C4) -/

/-- Is this `Except` an error? -/
def isErr : Except ε α → Bool
  | .error _ => true
  | .ok _ => false

theorem isErr_eq_true_iff {ε α : Type} (x : Except ε α) :
    isErr x = true ↔ ∃ e, x = .error e := by
  cases x <;> simp [isErr]

/-- An unknown key makes the `deny_unknown_fields` scan find a culprit. -/
theorem hasUnknownKey_find (known : List String) (fields : List (String × JValue))
    (h : hasUnknownKey known fields = true) :
    ∃ kv, fields.find? (fun kv => !(known.contains kv.1)) = some kv := by
  unfold hasUnknownKey at h
  rw [List.any_eq_true] at h
  obtain ⟨x, hx, hpx⟩ := h
  have hs : (fields.find? (fun kv => !(known.contains kv.1))).isSome :=
    List.find?_isSome.mpr ⟨x, hx, hpx⟩
  exact Option.isSome_iff_exists.mp hs

/-- If some element of the sequence fails to decode, the whole sequence
decode fails. -/
theorem decodeList_isErr {α : Type} (f : JValue → Except DeErr α) (l : List JValue)
    (v : JValue) (hv : v ∈ l) (hf : isErr (f v) = true) :
    isErr (decodeList f l) = true := by
  induction l with
  | nil => cases hv
  | cons w rest ih =>
    unfold decodeList
    cases hv with
    | head =>
      cases hfw : f v with
      | error e => simp [hfw, isErr]
      | ok a => rw [hfw] at hf; simp [isErr] at hf
    | tail _ hmem =>
      cases hfw : f w with
      | error e => simp [hfw, isErr]
      | ok a =>
        have hrest := ih hmem
        cases hdl : decodeList f rest with
        | error e => simp [hfw, hdl, isErr]
        | ok xs => rw [hdl] at hrest; simp [isErr] at hrest

/-- With `deny_unknown_fields` on `AdminConfig`, an unknown key is an error. -/
theorem decodeAdminConfig_unknown (dc : DecodeCollab) (afs : List (String × JValue))
    (h : hasUnknownKey adminConfigKeys afs = true) :
    isErr (decodeAdminConfig dc (.obj afs)) = true := by
  obtain ⟨kv, hkv⟩ := hasUnknownKey_find _ _ h
  show isErr (decodeAdminFields dc afs) = true
  unfold decodeAdminFields
  rw [hkv]
  rfl

/-- With `deny_unknown_fields` on `RouterConfig`, an unknown key is an error. -/
theorem decodeRouterConfig_unknown (dc : DecodeCollab) (rfs : List (String × JValue))
    (h : hasUnknownKey routerConfigKeys rfs = true) :
    isErr (decodeRouterConfig dc (.obj rfs)) = true := by
  obtain ⟨kv, hkv⟩ := hasUnknownKey_find _ _ h
  show isErr (decodeRouterFields dc rfs) = true
  unfold decodeRouterFields
  rw [hkv]
  rfl

/-- An unknown key in the interpreter object (neither the `kind` tag nor a
`NamerdConfig` field) is an error. -/
theorem decodeInterpreterConfig_unknown (dc : DecodeCollab) (ifs : List (String × JValue))
    (h : hasUnknownKey ("kind" :: dc.namerdKeys) ifs = true) :
    isErr (decodeInterpreterConfig dc (.obj ifs)) = true := by
  rw [hasUnknownKey, List.any_eq_true] at h
  obtain ⟨x, hxmem, hxp⟩ := h
  have hxp' : x.1 ∉ ("kind" :: dc.namerdKeys) := by simpa using hxp
  rw [List.mem_cons, not_or] at hxp'
  obtain ⟨hxkind, hxnk⟩ := hxp'
  show isErr (decodeInterpreterFields dc ifs) = true
  unfold decodeInterpreterFields
  cases hk : getField ifs "kind" with
  | none => simp [isErr]
  | some kv =>
    cases kv with
    | null => simp [hk, isErr]
    | bool b => simp [hk, isErr]
    | num n => simp [hk, isErr]
    | arr xs => simp [hk, isErr]
    | obj fs => simp [hk, isErr]
    | str k =>
      simp only [hk]
      by_cases hkt : (k == "io.l5d.namerd.http") = true
      · simp only [hkt, if_true]
        have hmemf : x ∈ ifs.filter (fun kv => !(kv.1 == "kind")) := by
          rw [List.mem_filter]
          exact ⟨hxmem, by simp [hxkind]⟩
        have hfs : ((ifs.filter (fun kv => !(kv.1 == "kind"))).find?
            (fun kv => !(dc.namerdKeys.contains kv.1))).isSome :=
          List.find?_isSome.mpr ⟨x, hmemf, by simpa using hxnk⟩
        obtain ⟨kv', hkv'⟩ := Option.isSome_iff_exists.mp hfs
        unfold decodeNamerdConfig
        rw [hkv']
        rfl
      · simp only [Bool.not_eq_true] at hkt
        simp [hkt, isErr]

/-- A router object whose interpreter object carries an unknown key fails
to decode, whatever its other fields do. -/
theorem decodeRouterConfig_interpErr (dc : DecodeCollab) (rfs ifs : List (String × JValue))
    (hi : getField rfs "interpreter" = some (.obj ifs))
    (hk : hasUnknownKey ("kind" :: dc.namerdKeys) ifs = true) :
    isErr (decodeRouterConfig dc (.obj rfs)) = true := by
  obtain ⟨d0, hd0⟩ :=
    (isErr_eq_true_iff _).mp (decodeInterpreterConfig_unknown dc ifs hk)
  show isErr (decodeRouterFields dc rfs) = true
  unfold decodeRouterFields
  cases hf : rfs.find? (fun kv => !(routerConfigKeys.contains kv.1)) with
  | some kv => simp only [hf, isErr]
  | none =>
    simp only [hf]
    cases hl : getField rfs "label" with
    | none => simp only [hl, isErr]
    | some lv =>
      simp only [hl]
      cases hs : decodeStr lv with
      | error e => simp only [hs, isErr]
      | ok label =>
        simp only [hs]
        cases hv : getField rfs "servers" with
        | none => simp only [hv, isErr]
        | some sv =>
          cases sv with
          | null => simp only [hv, isErr]
          | bool b => simp only [hv, isErr]
          | num n => simp only [hv, isErr]
          | str s => simp only [hv, isErr]
          | obj fs => simp only [hv, isErr]
          | arr svs =>
            simp only [hv]
            cases hdl : decodeList dc.decodeServerConfig svs with
            | error e => simp only [hdl, isErr]
            | ok servers =>
              simp only [hdl]
              cases hc : decodeOptField dc.decodeConnectorConfig (getField rfs "client") with
              | error e => simp only [hc, isErr]
              | ok client =>
                simp only [hc, hi, hd0, isErr]

/-- The positions at which C4 places an unrecognized field: the AppConfig
object itself, its admin object, one of its router objects, or the
interpreter object of one of its routers. -/
def badConfigObject (dc : DecodeCollab) (fields : List (String × JValue)) : Prop :=
  hasUnknownKey appConfigKeys fields = true ∨
  (∃ afs, getField fields "admin" = some (.obj afs) ∧
    hasUnknownKey adminConfigKeys afs = true) ∨
  (∃ rvs rfs, getField fields "routers" = some (.arr rvs) ∧ JValue.obj rfs ∈ rvs ∧
    hasUnknownKey routerConfigKeys rfs = true) ∨
  (∃ rvs rfs ifs, getField fields "routers" = some (.arr rvs) ∧ JValue.obj rfs ∈ rvs ∧
    getField rfs "interpreter" = some (.obj ifs) ∧
    hasUnknownKey ("kind" :: dc.namerdKeys) ifs = true)

/-- An unrecognized field at any of the four C4 positions fails the whole
`AppConfig` decode. -/
theorem decodeAppConfig_unknown (dc : DecodeCollab) (fields : List (String × JValue))
    (hbad : badConfigObject dc fields) :
    isErr (decodeAppConfig dc (.obj fields)) = true := by
  show isErr (decodeAppFields dc fields) = true
  unfold decodeAppFields
  rcases hbad with h | ⟨afs, ha, h⟩ | ⟨rvs, rfs, hr, hmem, h⟩ |
    ⟨rvs, rfs, ifs, hr, hmem, hif, h⟩
  · obtain ⟨kv, hkv⟩ := hasUnknownKey_find _ _ h
    simp only [hkv, isErr]
  · cases hf : fields.find? (fun kv => !(appConfigKeys.contains kv.1)) with
    | some kv => simp only [hf, isErr]
    | none =>
      obtain ⟨d0, hd0⟩ := (isErr_eq_true_iff _).mp (decodeAdminConfig_unknown dc afs h)
      have hopt : decodeOptField (decodeAdminConfig dc) (getField fields "admin") =
          .error d0 := by
        rw [ha]
        show ((decodeAdminConfig dc (.obj afs)).map some) = .error d0
        rw [hd0]
        rfl
      simp only [hf, hopt, isErr]
  · cases hf : fields.find? (fun kv => !(appConfigKeys.contains kv.1)) with
    | some kv => simp only [hf, isErr]
    | none =>
      simp only [hf]
      cases hoa : decodeOptField (decodeAdminConfig dc) (getField fields "admin") with
      | error e => simp only [hoa, isErr]
      | ok admin =>
        have hle : isErr (decodeList (decodeRouterConfig dc) rvs) = true :=
          decodeList_isErr _ rvs (.obj rfs) hmem (decodeRouterConfig_unknown dc rfs h)
        obtain ⟨d0, hd0⟩ := (isErr_eq_true_iff _).mp hle
        simp only [hoa, hr, hd0, isErr]
  · cases hf : fields.find? (fun kv => !(appConfigKeys.contains kv.1)) with
    | some kv => simp only [hf, isErr]
    | none =>
      simp only [hf]
      cases hoa : decodeOptField (decodeAdminConfig dc) (getField fields "admin") with
      | error e => simp only [hoa, isErr]
      | ok admin =>
        have hle : isErr (decodeList (decodeRouterConfig dc) rvs) = true :=
          decodeList_isErr _ rvs (.obj rfs) hmem
            (decodeRouterConfig_interpErr dc rfs ifs hif h)
        obtain ⟨d0, hd0⟩ := (isErr_eq_true_iff _).mp hle
        simp only [hoa, hr, hd0, isErr]

/-- Classify a `from_str` outcome: `some true` is a JSON-variant
schema/deserialization failure, `some false` a YAML-variant one, `none`
anything else. -/
def schemaErrFormat : Except Error AppConfig → Option Bool
  | .error (.json (.deErr _)) => some true
  | .error (.yaml (.deErr _)) => some false
  | _ => none

/-- C4: text carrying an unrecognized field in any config object
(AppConfig, RouterConfig, InterpreterConfig or AdminConfig) makes
`from_str` fail with a syntax error of the format that was auto-detected
for the text, whichever format that is. -/
theorem c4_unknown_field_rejected (p : ParseCollab) (dc : DecodeCollab) (txt : List Char)
    (fields : List (String × JValue))
    (hparse : (if starts_with (trim_start txt) '\x7b' then p.jsonParse (trim_start txt)
               else p.yamlParse (trim_start txt)) = .ok (.obj fields))
    (hbad : badConfigObject dc fields) :
    schemaErrFormat (AppConfig.from_str p dc txt) =
      some (starts_with (trim_start txt) '\x7b') := by
  obtain ⟨d, hd⟩ := (isErr_eq_true_iff _).mp (decodeAppConfig_unknown dc fields hbad)
  unfold AppConfig.from_str
  cases hb : starts_with (trim_start txt) '\x7b' with
  | true =>
    rw [hb, if_pos rfl] at hparse
    simp only [hb, if_true, hparse, hd, schemaErrFormat]
  | false =>
    rw [hb, if_neg (by simp)] at hparse
    simp only [hb, Bool.false_eq_true, if_false, hparse, hd, schemaErrFormat]

theorem c4_unknown_field_rejected_witness :
    badConfigObject sampleDecode [("foo", .num 1), ("routers", .arr [])] ∧
    schemaErrFormat (AppConfig.from_str
      (constParse (.obj [("foo", .num 1), ("routers", .arr [])])) sampleDecode
      "\x7bfoo".data) = some true :=
  ⟨Or.inl (by decide),
   c4_unknown_field_rejected (constParse (.obj [("foo", .num 1), ("routers", .arr [])]))
     sampleDecode "\x7bfoo".data [("foo", .num 1), ("routers", .arr [])]
     rfl (Or.inl (by decide))⟩

/-! ## Shutdown latch, metrics loop and accept loop properties -/

/-- Once fired, the latch swallows every further send as `alreadyUsed` and
its state never changes. -/
theorem runSends_fired (d : Instant) (ds : List Instant) :
    runSends (.fired d) ds = (.fired d, ds.map fun _ => .alreadyUsed) := by
  induction ds with
  | nil => rfl
  | cons d2 rest ih => simp [runSends, latchSend, ih]

/-- C8: over any sequence of send attempts on the latch from `closer`, the
receiver observes at most one value — the first deadline sent — the first
send is accepted, and every later send yields the `alreadyUsed` error value
(a returned error, not a crash of the model). -/
theorem c8_latch_single_use (ds : List Instant) :
    latchRecv (runSends closer ds).1 = ds.head? ∧
    (runSends closer ds).2 =
      (match ds with
       | [] => []
       | _ :: rest => SendResult.accepted :: rest.map fun _ => SendResult.alreadyUsed) ∧
    (runSends closer ds).2.count .accepted ≤ 1 := by
  cases ds with
  | nil => exact ⟨rfl, rfl, by simp [runSends, closer]⟩
  | cons d rest =>
    have hrun : runSends closer (d :: rest) =
        (.fired d, .accepted :: rest.map fun _ => .alreadyUsed) := by
      simp [runSends, closer, latchSend, runSends_fired]
    refine ⟨by rw [hrun]; rfl, by rw [hrun], ?_⟩
    rw [hrun]
    have hz : (List.replicate rest.length SendResult.alreadyUsed).count
        SendResult.accepted = 0 := by
      rw [List.count_eq_zero]
      simp
    simp [List.count_cons, hz]

/-- Accumulating a period of increments onto a reporter appends them. -/
theorem applyIncrs_counts (r : Reporter) (p : List (String × Nat)) :
    applyIncrs r p = ⟨r.counts ++ p⟩ := by
  induction p generalizing r with
  | nil => simp [applyIncrs]
  | cons kv rest ih =>
    cases kv with
    | mk k n => rw [applyIncrs, ih]; simp [Reporter.incr]

/-- C9: firing the export loop over any sequence of periods yields exactly
one snapshot per period, containing exactly that period's increments (so
consecutive snapshots never share a reported count); the reporter is left
reset, and the export buffer holds the rendering of the latest snapshot
alone. -/
theorem c9_metrics_snapshots (periods : List (List (String × Nat)))
    (st : MetricsLoopState) (hempty : st.reporter = ⟨[]⟩) :
    (runMetrics st periods).2 = periods ∧
    (runMetrics st periods).1.reporter = ⟨[]⟩ ∧
    (∀ lastp, periods.getLast? = some lastp →
      (runMetrics st periods).1.prom_export = render lastp) := by
  induction periods generalizing st with
  | nil =>
    refine ⟨rfl, hempty, ?_⟩
    intro lastp hl
    simp at hl
  | cons p rest ih =>
    have h1 : applyIncrs st.reporter p = ⟨p⟩ := by
      rw [hempty, applyIncrs_counts]
      simp
    have hstep : runMetrics st (p :: rest) =
        ((runMetrics ⟨⟨[]⟩, render p⟩ rest).1,
          p :: (runMetrics ⟨⟨[]⟩, render p⟩ rest).2) := by
      rw [runMetrics, h1]
      rfl
    obtain ⟨hsnap, hrep, hlast⟩ := ih ⟨⟨[]⟩, render p⟩ rfl
    refine ⟨by rw [hstep, hsnap], by rw [hstep]; exact hrep, ?_⟩
    intro lastp hl
    cases rest with
    | nil =>
      simp only [List.getLast?_singleton, Option.some.injEq] at hl
      subst hl
      rw [hstep]
      rfl
    | cons q qs =>
      rw [List.getLast?_cons_cons] at hl
      rw [hstep]
      exact hlast lastp hl

theorem c9_metrics_snapshots_witness :
    (runMetrics ⟨⟨[]⟩, ""⟩ [[("a", 1)], [("b", 2)]]).2 = [[("a", 1)], [("b", 2)]] ∧
    (runMetrics ⟨⟨[]⟩, ""⟩ [[("a", 1)], [("b", 2)]]).1.prom_export = render [("b", 2)] :=
  ⟨(c9_metrics_snapshots [[("a", 1)], [("b", 2)]] ⟨⟨[]⟩, ""⟩ rfl).1,
   (c9_metrics_snapshots [[("a", 1)], [("b", 2)]] ⟨⟨[]⟩, ""⟩ rfl).2.2 [("b", 2)] rfl⟩

/-- General form of the accept loop: it completes over the whole connection
stream, spawns a serve task for every accepted connection, and logs exactly
the failing connections' errors. -/
theorem acceptLoop_spec (outcome : Conn → ServeOutcome) (conns : List Conn)
    (st : AcceptState) :
    acceptLoop outcome st conns =
      .ok ⟨st.spawned ++ conns,
           st.logged ++ conns.filterMap fun t =>
             match outcome t with
             | .served => none
             | .failed e => some e⟩ := by
  induction conns generalizing st with
  | nil => simp [acceptLoop]
  | cons tcp rest ih =>
    rw [acceptLoop, acceptStep]
    cases ho : outcome tcp with
    | served => simp [ho, ih]
    | failed e => simp [ho, ih]

/-- C10: a failure while serving any single admin connection never
terminates the accept loop (`for_each` sees `Ok(())` for every
connection): every accepted connection — in particular any connection
after a failing one — is handed to a spawned serve task, whatever the
outcomes of the other connections, and each failure is merely logged. -/
theorem c10_accept_isolation (outcome : Conn → ServeOutcome) (conns : List Conn) :
    acceptLoop outcome ⟨[], []⟩ conns =
      .ok ⟨conns, conns.filterMap fun t =>
        match outcome t with
        | .served => none
        | .failed e => some e⟩ := by
  have h := acceptLoop_spec outcome conns ⟨[], []⟩
  simpa using h

end Linkerd
